import Mathlib

/-! fsutil: locked file handles and scoped transactions

A shallow embedding of `file-lock.go` (package `fsutil`).

The Go code is a sequence of calls into the operating system (`os.OpenFile`,
`syscall.Flock`, `File.Sync`, ...).  The embedding threads an explicit `World`
through those calls.  A `World` holds

* the directory: which paths carry a file, and the bytes of each file,
* the table of open `os.File` objects (path, open flags, offset, flock mode),
* a fault oracle `fails` saying which system calls the platform refuses
  (`refuses` is the oracle as seen through the Go wrappers that repeat a call
  interrupted by a signal),
* a chronological `trace` of every system call issued, every line written to
  the process-wide logger and every callback invocation.

Only one process is modelled: `flock` never blocks, it either succeeds or is
refused by the oracle.  Callbacks are strategies over the stream interfaces
they are handed (`io.ReadSeeker`, `io.Writer`).
-/

namespace Fsutil

/-! ## Platform constants (Go `os` / `syscall`, linux) -/

def O_RDONLY : Nat := 0x0
def O_WRONLY : Nat := 0x1
def O_RDWR : Nat := 0x2
def O_APPEND : Nat := 0x400
def O_CREATE : Nat := 0x40
def O_EXCL : Nat := 0x80
def O_SYNC : Nat := 0x101000
def O_TRUNC : Nat := 0x200

def LOCK_SH : Nat := 1
def LOCK_EX : Nat := 2
def LOCK_UN : Nat := 8

def SEEK_SET : Nat := 0
def SEEK_CUR : Nat := 1
def SEEK_END : Nat := 2

/-! ## Data -/

abbrev Byte := Fin 256

/-- Error numbers a system call can report. -/
inductive Errno where
  | ENOENT | EEXIST | EBADF | EINVAL | EACCES | ENOSPC | ENOLCK | EINTR | EIO
  deriving DecidableEq, Repr

/-- Go `error` values that occur in this package. -/
inductive Error where
  /-- Go `io.EOF` -/
  | EOF
  /-- Go `os.ErrClosed` -/
  | ErrClosed
  /-- a bare `syscall.Errno` -/
  | sys (e : Errno)
  /-- Go `*os.PathError` with fields Op, Path, Err -/
  | path (op : String) (name : String) (err : Error)
  /-- an error value made by a callback -/
  | user (msg : String)
  /-- the result of `errors.Wrapf(cause, msg)` -/
  | wrap (cause : Error) (msg : String)
  deriving DecidableEq, Repr

/-- System calls, with their arguments. -/
inductive Syscall where
  | openat (name : String) (flag perm : Nat)
  | close (fd : Nat)
  | flock (fd how : Nat)
  | fsync (fd : Nat)
  | ftruncate (fd size : Nat)
  | lseek (fd : Nat) (offset : Int) (whence : Nat)
  | read (fd n : Nat)
  | write (fd : Nat) (p : List Byte)
  | unlink (name : String)
  deriving DecidableEq, Repr

/-- Observable events, in the order they happen. -/
inductive Event where
  /-- a system call and the error number it came back with, if any -/
  | sys (call : Syscall) (err : Option Errno)
  /-- Go `log.Println(args...)` -/
  | log (args : List String)
  /-- Go `log.Println(msg, err)` -/
  | logErr (msg : String) (err : Error)
  /-- the caller supplied callback is entered -/
  | callback
  deriving DecidableEq, Repr

/-- One open file: the state behind a live `*os.File`. -/
structure Desc where
  name : String
  flag : Nat
  offset : Nat
  lock : Option Nat
  deriving DecidableEq, Repr

/-- The state of the platform. -/
structure World where
  files : String → Option (List Byte)
  fds : Nat → Option Desc
  nextFd : Nat
  fails : Syscall → Option Errno
  trace : List Event

/-- Go `*os.File`: the descriptor it owns and the name it was opened with.
Descriptors are never reused, so a closed `File` stays closed. -/
structure File where
  fd : Nat
  name : String
  deriving DecidableEq, Repr

/-- The answer of the platform to `call` as seen through a Go wrapper that
repeats an interrupted system call (`os.OpenFile`, `os.Remove`, `File.Sync`,
`File.Truncate`, `File.Read`, `File.Write`): the call is issued again until it
is not interrupted, so EINTR is never handed to the caller and the call then
takes its course.  `File.Close`, `File.Seek` and `syscall.Flock` do not repeat
the call and consult `fails` directly. -/
def World.refuses (w : World) (call : Syscall) : Option Errno :=
  match w.fails call with
  | some .EINTR => none
  | r => r

def World.emit (w : World) (e : Event) : World :=
  { w with trace := w.trace ++ [e] }

def World.setFile (w : World) (name : String) (data : Option (List Byte)) : World :=
  { w with files := fun p => if p = name then data else w.files p }

def World.setDesc (w : World) (fd : Nat) (d : Option Desc) : World :=
  { w with fds := fun n => if n = fd then d else w.fds n }

/-- The access mode bits of an open flag allow writing. -/
def writable (flag : Nat) : Bool :=
  flag &&& (O_WRONLY ||| O_RDWR) != 0

/-- The access mode bits of an open flag allow reading. -/
def readable (flag : Nat) : Bool :=
  flag &&& O_WRONLY == 0

/-- Bytes of `data` after writing `p` at position `off`
(a gap past the end is filled with zero bytes). -/
def overwrite (data : List Byte) (off : Nat) (p : List Byte) : List Byte :=
  (data ++ List.replicate (off - data.length) 0).take off ++ p ++ data.drop (off + p.length)

/-- Bytes of `data` cut or zero-extended to `size`. -/
def resize (data : List Byte) (size : Nat) : List Byte :=
  data.take size ++ List.replicate (size - data.length) 0

/-- Go `errors.Wrapf(err, msg)` -/
def errorsWrapf (err : Error) (msg : String) : Error :=
  Error.wrap err msg

/-! ## `os` and `syscall` -/

/-- Go `os.OpenFile(name, flag, perm)` -/
def osOpenFile (name : String) (flag perm : Nat) (w : World) : Except Error File × World :=
  let call := Syscall.openat name flag perm
  match w.refuses call with
  | some e => (.error (.path "open" name (.sys e)), w.emit (.sys call (some e)))
  | none =>
    match w.files name with
    | some data =>
      if flag &&& O_CREATE != 0 && flag &&& O_EXCL != 0 then
        (.error (.path "open" name (.sys .EEXIST)), w.emit (.sys call (some .EEXIST)))
      else
        let data := if flag &&& O_TRUNC != 0 then [] else data
        let w := w.setFile name (some data)
        let w := w.setDesc w.nextFd (some ⟨name, flag, 0, none⟩)
        (.ok ⟨w.nextFd, name⟩, { w with nextFd := w.nextFd + 1 }.emit (.sys call none))
    | none =>
      if flag &&& O_CREATE != 0 then
        let w := w.setFile name (some [])
        let w := w.setDesc w.nextFd (some ⟨name, flag, 0, none⟩)
        (.ok ⟨w.nextFd, name⟩, { w with nextFd := w.nextFd + 1 }.emit (.sys call none))
      else
        (.error (.path "open" name (.sys .ENOENT)), w.emit (.sys call (some .ENOENT)))

/-- Go `os.Open(name)` -/
def osOpen (name : String) (w : World) : Except Error File × World :=
  osOpenFile name O_RDONLY 0 w

/-- Go `os.Remove(name)` -/
def osRemove (name : String) (w : World) : Option Error × World :=
  let call := Syscall.unlink name
  match w.refuses call with
  | some e => (some (.path "remove" name (.sys e)), w.emit (.sys call (some e)))
  | none =>
    match w.files name with
    | none => (some (.path "remove" name (.sys .ENOENT)), w.emit (.sys call (some .ENOENT)))
    | some _ => (none, (w.setFile name none).emit (.sys call none))

/-- Go `syscall.Flock(fd, how)` -/
def syscallFlock (fd how : Nat) (w : World) : Option Error × World :=
  let call := Syscall.flock fd how
  match w.fails call with
  | some e => (some (.sys e), w.emit (.sys call (some e)))
  | none =>
    match w.fds fd with
    | none => (some (.sys .EBADF), w.emit (.sys call (some .EBADF)))
    | some d =>
      let held := if how = LOCK_UN then none else some how
      (none, (w.setDesc fd (some { d with lock := held })).emit (.sys call none))

/-- Go `f.Fd()` -/
def File.Fd (f : File) : Nat := f.fd

/-- Go `f.Name()` -/
def File.Name (f : File) : String := f.name

/-- Go `f.Sync()` -/
def File.Sync (f : File) (w : World) : Option Error × World :=
  match w.fds f.fd with
  | none => (some (.path "sync" f.name .ErrClosed), w)
  | some _ =>
    let call := Syscall.fsync f.fd
    match w.refuses call with
    | some e => (some (.path "sync" f.name (.sys e)), w.emit (.sys call (some e)))
    | none => (none, w.emit (.sys call none))

/-- Go `f.Close()`: the descriptor is released whatever `close` reports. -/
def File.Close (f : File) (w : World) : Option Error × World :=
  match w.fds f.fd with
  | none => (some (.path "close" f.name .ErrClosed), w)
  | some _ =>
    let call := Syscall.close f.fd
    match w.fails call with
    | some e => (some (.path "close" f.name (.sys e)), (w.setDesc f.fd none).emit (.sys call (some e)))
    | none => (none, (w.setDesc f.fd none).emit (.sys call none))

/-- Go `f.Truncate(size)` -/
def File.Truncate (f : File) (size : Nat) (w : World) : Option Error × World :=
  match w.fds f.fd with
  | none => (some (.path "truncate" f.name .ErrClosed), w)
  | some d =>
    let call := Syscall.ftruncate f.fd size
    match w.refuses call with
    | some e => (some (.path "truncate" f.name (.sys e)), w.emit (.sys call (some e)))
    | none =>
      if writable d.flag then
        (none, (w.setFile d.name (some (resize ((w.files d.name).getD []) size))).emit (.sys call none))
      else
        (some (.path "truncate" f.name (.sys .EINVAL)), w.emit (.sys call (some .EINVAL)))

/-- Go `f.Seek(offset, whence)` -/
def File.Seek (f : File) (offset : Int) (whence : Nat) (w : World) : Int × Option Error × World :=
  match w.fds f.fd with
  | none => (0, some (.path "seek" f.name .ErrClosed), w)
  | some d =>
    let call := Syscall.lseek f.fd offset whence
    match w.fails call with
    | some e => (0, some (.path "seek" f.name (.sys e)), w.emit (.sys call (some e)))
    | none =>
      let base : Int :=
        if whence = SEEK_SET then 0
        else if whence = SEEK_CUR then d.offset
        else ((w.files d.name).getD []).length
      let pos := base + offset
      if SEEK_END < whence ∨ pos < 0 then
        (0, some (.path "seek" f.name (.sys .EINVAL)), w.emit (.sys call (some .EINVAL)))
      else
        (pos, none, (w.setDesc f.fd (some { d with offset := pos.toNat })).emit (.sys call none))

/-- Go `f.Read(p)` with `len(p) = n`: the bytes read and the error. -/
def File.Read (f : File) (n : Nat) (w : World) : List Byte × Option Error × World :=
  match w.fds f.fd with
  | none => ([], some (.path "read" f.name .ErrClosed), w)
  | some d =>
    if n = 0 then ([], none, w)
    else
      let call := Syscall.read f.fd n
      match w.refuses call with
      | some e => ([], some (.path "read" f.name (.sys e)), w.emit (.sys call (some e)))
      | none =>
        if readable d.flag then
          let got := (((w.files d.name).getD []).drop d.offset).take n
          if got.length = 0 then ([], some .EOF, w.emit (.sys call none))
          else (got, none, (w.setDesc f.fd (some { d with offset := d.offset + got.length })).emit (.sys call none))
        else
          ([], some (.path "read" f.name (.sys .EBADF)), w.emit (.sys call (some .EBADF)))

/-- Go `f.Write(p)`: the number of bytes written and the error. -/
def File.Write (f : File) (p : List Byte) (w : World) : Nat × Option Error × World :=
  match w.fds f.fd with
  | none => (0, some (.path "write" f.name .ErrClosed), w)
  | some d =>
    let call := Syscall.write f.fd p
    match w.refuses call with
    | some e => (0, some (.path "write" f.name (.sys e)), w.emit (.sys call (some e)))
    | none =>
      if writable d.flag then
        let data := (w.files d.name).getD []
        let off := if d.flag &&& O_APPEND != 0 then data.length else d.offset
        let w := w.setFile d.name (some (overwrite data off p))
        (p.length, none, (w.setDesc f.fd (some { d with offset := off + p.length })).emit (.sys call none))
      else
        (0, some (.path "write" f.name (.sys .EBADF)), w.emit (.sys call (some .EBADF)))

/-- Go `io.Copy(dst, src)`: everything from the offset of `src` to its end is read
and written to `dst`; the result is the byte count and the first error. -/
def ioCopy (dst src : File) (w : World) : Nat × Option Error × World :=
  let pending :=
    match w.fds src.fd with
    | none => 1
    | some d => ((w.files d.name).getD []).length - d.offset
  match src.Read (max pending 1) w with
  | (_, some .EOF, w) => (0, none, w)
  | (_, some err, w) => (0, some err, w)
  | (buf, none, w) => dst.Write buf w

/-! ## The locked file handle -/

/-- Go `type LockedFile struct { *os.File; flag int; lock *int }`;
a nil `lock` pointer is `none`. -/
structure LockedFile where
  File : Fsutil.File
  flag : Nat
  lock : Option Nat
  deriving DecidableEq, Repr

/-- Go `func (lf *LockedFile) Lock() error` -/
def LockedFile.Lock (lf : LockedFile) (w : World) : Option Error × LockedFile × World :=
  if lf.lock != none then
    -- already locked
    (none, lf, w)
  else
    let lock := if (lf.flag &&& O_RDONLY) != 0 then LOCK_SH else LOCK_EX
    let w := w.emit (.log ["lock", lf.File.Name])
    match syscallFlock lf.File.Fd lock w with
    | (some err, w) => (some err, lf, w)
    | (none, w) =>
      let w := w.emit (.log ["got lock for", lf.File.Name])
      (none, { lf with lock := some lock }, w)

/-- Go `func (lf *LockedFile) Unlock() error` -/
def LockedFile.Unlock (lf : LockedFile) (w : World) : Option Error × LockedFile × World :=
  if lf.lock == none then
    (none, lf, w)
  else
    let w := w.emit (.log ["unlocking", lf.File.Name])
    match syscallFlock lf.File.Fd LOCK_UN w with
    | (some err, w) => (some err, lf, w)
    | (none, w) =>
      let w := w.emit (.log ["unlocked", lf.File.Name])
      (none, { lf with lock := none }, w)

/-- Go `func (lf *LockedFile) Close() error` -/
def LockedFile.Close (lf : LockedFile) (w : World) : Option Error × LockedFile × World :=
  match lf.File.Sync w with
  | (some err, w) =>
    (some err, lf, w.emit (.logErr "error syncing file before closing:" err))
  | (none, w) =>
    match lf.Unlock w with
    | (some err, lf, w) => (some err, lf, w)
    | (none, lf, w) => ((lf.File.Close w).1, lf, (lf.File.Close w).2)

/-- Go `func OpenLocked(name string, flag int, perm os.FileMode) (*LockedFile, error)` -/
def OpenLocked (name : String) (flag perm : Nat) (w : World) : Except Error LockedFile × World :=
  let trunc := ((flag &&& O_TRUNC) == 0) && ((flag &&& (O_WRONLY ||| O_RDWR)) == 0)
  let flag := flag &&& (O_RDONLY ||| O_WRONLY ||| O_RDWR ||| O_APPEND ||| O_CREATE ||| O_EXCL ||| O_SYNC)
  match osOpenFile name flag perm w with
  | (.error err, w) => (.error err, w)
  | (.ok f, w) =>
    let lf : LockedFile := ⟨f, flag &&& (O_RDONLY ||| O_WRONLY ||| O_RDWR), none⟩
    match lf.Lock w with
    | (some err, _, w) => (.error err, (f.Close w).2)
    | (none, lf, w) =>
      if trunc then
        match f.Truncate 0 w with
        | (some err, w) => (.error err, (f.Close w).2)
        | (none, w) => (.ok lf, w)
      else
        (.ok lf, w)

/-! ## Callbacks

A callback can only act through the streams it is handed, so it is a strategy:
at each step it either returns, or issues one call on a stream and continues
with the result of that call. -/

/-- Go `func(io.ReadSeeker) error` -/
inductive ReadCallback where
  | ret (err : Option Error)
  | read (n : Nat) (k : List Byte → Option Error → ReadCallback)
  | seek (offset : Int) (whence : Nat) (k : Int → Option Error → ReadCallback)

/-- Go `func(io.Writer) error` -/
inductive WriteCallback where
  | ret (err : Option Error)
  | write (p : List Byte) (k : Nat → Option Error → WriteCallback)

/-- Go `func(io.ReadSeeker, io.Writer) error` -/
inductive UpdateCallback where
  | ret (err : Option Error)
  | read (n : Nat) (k : List Byte → Option Error → UpdateCallback)
  | seek (offset : Int) (whence : Nat) (k : Int → Option Error → UpdateCallback)
  | write (p : List Byte) (k : Nat → Option Error → UpdateCallback)

/-- Run `callback(f)` for a read callback. -/
def ReadCallback.run : ReadCallback → File → World → Option Error × World
  | .ret err, _, w => (err, w)
  | .read n k, f, w => (k (f.Read n w).1 (f.Read n w).2.1).run f (f.Read n w).2.2
  | .seek offset whence k, f, w =>
    (k (f.Seek offset whence w).1 (f.Seek offset whence w).2.1).run f (f.Seek offset whence w).2.2

/-- Run `callback(f)` for a write callback. -/
def WriteCallback.run : WriteCallback → File → World → Option Error × World
  | .ret err, _, w => (err, w)
  | .write p k, f, w => (k (f.Write p w).1 (f.Write p w).2.1).run f (f.Write p w).2.2

/-- Run `callback(rf, wf)` for an update callback. -/
def UpdateCallback.run : UpdateCallback → File → File → World → Option Error × World
  | .ret err, _, _, w => (err, w)
  | .read n k, rf, wf, w => (k (rf.Read n w).1 (rf.Read n w).2.1).run rf wf (rf.Read n w).2.2
  | .seek offset whence k, rf, wf, w =>
    (k (rf.Seek offset whence w).1 (rf.Seek offset whence w).2.1).run rf wf (rf.Seek offset whence w).2.2
  | .write p k, rf, wf, w => (k (wf.Write p w).1 (wf.Write p w).2.1).run rf wf (wf.Write p w).2.2

/-! ## Scoped transactions

A Go `defer` splits a function body in two: the statements after it, and the
deferred call that runs on their result.  The deferred calls below appear
after the block they guard, marked `deferred`. -/

/-- Go `func ReadLocked(fn string, callback func(io.ReadSeeker) error) error` -/
def ReadLocked (fn : String) (callback : ReadCallback) (w : World) : Option Error × World :=
  match osOpen fn w with
  | (.error err, w) => (some (errorsWrapf err ("error opening file " ++ fn)), w)
  | (.ok f, w) =>
    let fd := f.Fd
    let r :=
      match syscallFlock fd LOCK_SH w with
      | (some err, w) => (some (errorsWrapf err ("error getting read lock on " ++ fn)), w)
      | (none, w) =>
        let r := callback.run f (w.emit .callback)
        -- deferred: syscall.Flock(fd, syscall.LOCK_UN)
        (r.1, (syscallFlock fd LOCK_UN r.2).2)
    -- deferred: f.Close()
    (r.1, (f.Close r.2).2)

/-- Go `func CreateLocked(fn string, callback func(io.Writer) error) error` -/
def CreateLocked (fn : String) (callback : WriteCallback) (w : World) : Option Error × World :=
  match osOpenFile fn (O_WRONLY ||| O_CREATE ||| O_EXCL) 0o664 w with
  | (.error err, w) => (some (errorsWrapf err ("error creating file " ++ fn)), w)
  | (.ok f, w) =>
    let fd := f.Fd
    let r :=
      match syscallFlock fd LOCK_EX w with
      | (some err, w) => (some (errorsWrapf err ("error getting write lock on " ++ fn)), w)
      | (none, w) =>
        match callback.run f (w.emit .callback) with
        | (some err, w) => (some err, (f.Close (syscallFlock fd LOCK_UN w).2).2)
        | (none, w) =>
          match f.Sync w with
          | (some err, w) => (some err, (f.Close (syscallFlock fd LOCK_UN w).2).2)
          | (none, w) =>
            match syscallFlock fd LOCK_UN w with
            | (some err, w) => (some err, (f.Close w).2)
            | (none, w) => f.Close w
    -- deferred: f.Close()
    (r.1, (f.Close r.2).2)

/-- Go `func UpdateLocked(fn string, callback func(io.ReadSeeker, io.Writer) error) error` -/
def UpdateLocked (fn : String) (callback : UpdateCallback) (w : World) : Option Error × World :=
  match osOpenFile fn (O_RDWR ||| O_CREATE) 0o664 w with
  | (.error err, w) => (some (errorsWrapf err ("error opening file " ++ fn)), w)
  | (.ok rf, w) =>
    let fd := rf.Fd
    let r :=
      match syscallFlock fd LOCK_EX w with
      | (some err, w) => (some (errorsWrapf err ("error getting write lock on " ++ fn)), w)
      | (none, w) =>
        let r :=
          match osOpenFile (fn ++ ".tmp") (O_RDWR ||| O_CREATE ||| O_EXCL) 0o644 w with
          | (.error err, w) => (some (errorsWrapf err ("error creating tempfile " ++ fn ++ ".tmp")), w)
          | (.ok wf, w) =>
            let r :=
              match callback.run rf wf (w.emit .callback) with
              | (some err, w) => (some err, w)
              | (none, w) =>
                match wf.Sync w with
                | (some err, w) => (some (errorsWrapf err ("error flushing tempfile " ++ fn ++ ".tmp")), w)
                | (none, w) =>
                  let w := (wf.Seek 0 SEEK_SET w).2.2
                  let w := (rf.Seek 0 SEEK_SET w).2.2
                  let w := (rf.Truncate 0 w).2
                  match ioCopy rf wf w with
                  | (_, some err, w) => (some (errorsWrapf err ("error writing changes to " ++ fn)), w)
                  | (_, none, w) =>
                    match rf.Sync w with
                    | (some err, w) => (some (errorsWrapf err ("error flushing changes to " ++ fn)), w)
                    | (none, w) => (none, w)
            -- deferred: wf.Close(), then os.Remove(fn + ".tmp")
            (r.1, (osRemove (fn ++ ".tmp") (wf.Close r.2).2).2)
        -- deferred: syscall.Flock(fd, syscall.LOCK_UN)
        (r.1, (syscallFlock fd LOCK_UN r.2).2)
    -- deferred: rf.Close()
    (r.1, (rf.Close r.2).2)

/-- A world with the given files, nothing open, no faults and an empty trace. -/
def World.ofFiles (fs : List (String × List Byte)) : World :=
  { files := fun p => (fs.lookup p)
    fds := fun _ => none
    nextFd := 3
    fails := fun _ => none
    trace := [] }

/-- The name and the open flags behind descriptor `n`, when it is open. -/
def World.key (w : World) (n : Nat) : Option (String × Nat) :=
  (w.fds n).map fun d => (d.name, d.flag)

/-- The offset of descriptor `n`, when it is open. -/
def World.pos (w : World) (n : Nat) : Option Nat :=
  (w.fds n).map fun d => d.offset

/-- The world `w` in which the platform also refuses the call `c` with `e`. -/
def World.refusing (w : World) (c : Syscall) (e : Errno) : World :=
  { w with fails := fun c1 => if c1 = c then some e else w.fails c1 }

/-- A file `a` holding the bytes 5, 6, 7 and nothing else. -/
def exampleWorld : World := World.ofFiles [("a", [5, 6, 7])]

/-- The handle on `a`, opened for reading and writing and holding its lock. -/
def exampleHandle : LockedFile := ⟨⟨3, "a"⟩, O_RDWR, some LOCK_EX⟩

/-- The world of `exampleHandle`. -/
def exampleHandleWorld : World := (OpenLocked "a" O_RDWR 0o644 exampleWorld).2

/-- The world in which `a` has been opened read-only by `os.Open`. -/
def exampleReadOnlyWorld : World := (osOpen "a" exampleWorld).2

/-- The unlocked read-only handle on `a` in `exampleReadOnlyWorld`. -/
def exampleReadOnlyHandle : LockedFile := ⟨⟨3, "a"⟩, O_RDONLY, none⟩

/-- An update callback that reads up to ten bytes, writes the byte 1 and returns nil. -/
def exampleUpdate : UpdateCallback :=
  .read 10 (fun _ _ => .write [1] (fun _ _ => .ret none))

/-- An update callback that writes the bytes 1, 2 and then returns an error. -/
def exampleFailingUpdate : UpdateCallback :=
  .write [1, 2] (fun _ _ => .ret (some (.user "boom")))

/-- An update callback that reads up to ten bytes of the original; when there
are none it returns nil, otherwise it writes the bytes 1, 2 and returns an
error. -/
def exampleConditionalUpdate : UpdateCallback :=
  .read 10 (fun buf _ =>
    if buf = [] then .ret none
    else .write [1, 2] (fun _ _ => .ret (some (.user "boom"))))

/-- A read callback that reads up to ten bytes and then returns an error. -/
def exampleFailingRead : ReadCallback :=
  .read 10 (fun _ _ => .ret (some (.user "boom")))

/-- A write callback that writes the bytes 1, 2 and then returns an error. -/
def exampleFailingWrite : WriteCallback :=
  .write [1, 2] (fun _ _ => .ret (some (.user "boom")))

/-- The example world on a platform that fails every close of descriptor 3. -/
def exampleCloseFails : World := exampleWorld.refusing (.close 3) .EINTR

/-- The example world on a platform that fails the truncate of descriptor 3
with an input/output error. -/
def exampleTruncateFails : World := exampleWorld.refusing (.ftruncate 3 0) Errno.EIO

/-- The example world on a platform that refuses to remove `a.tmp`. -/
def exampleRemoveFails : World := exampleWorld.refusing (.unlink "a.tmp") .EACCES

/-- The example world with a temp file left behind by an earlier run. -/
def exampleStaleTmp : World := World.ofFiles [("a", [5, 6, 7]), ("a.tmp", [9])]

/-! ## Basic facts about the platform model -/

@[simp] theorem emit_files (w : World) (e : Event) : (w.emit e).files = w.files := rfl
@[simp] theorem emit_fds (w : World) (e : Event) : (w.emit e).fds = w.fds := rfl
@[simp] theorem emit_fails (w : World) (e : Event) : (w.emit e).fails = w.fails := rfl
@[simp] theorem emit_refuses (w : World) (e : Event) : (w.emit e).refuses = w.refuses := rfl
@[simp] theorem emit_nextFd (w : World) (e : Event) : (w.emit e).nextFd = w.nextFd := rfl
@[simp] theorem emit_trace (w : World) (e : Event) : (w.emit e).trace = w.trace ++ [e] := rfl

@[simp] theorem setFile_files (w : World) (name : String) (d : Option (List Byte)) (p : String) :
    (w.setFile name d).files p = if p = name then d else w.files p := rfl
@[simp] theorem setFile_fds (w : World) (name : String) (d : Option (List Byte)) :
    (w.setFile name d).fds = w.fds := rfl
@[simp] theorem setFile_fails (w : World) (name : String) (d : Option (List Byte)) :
    (w.setFile name d).fails = w.fails := rfl
@[simp] theorem setFile_refuses (w : World) (name : String) (d : Option (List Byte)) :
    (w.setFile name d).refuses = w.refuses := rfl
@[simp] theorem setFile_nextFd (w : World) (name : String) (d : Option (List Byte)) :
    (w.setFile name d).nextFd = w.nextFd := rfl
@[simp] theorem setFile_trace (w : World) (name : String) (d : Option (List Byte)) :
    (w.setFile name d).trace = w.trace := rfl

@[simp] theorem setDesc_files (w : World) (fd : Nat) (d : Option Desc) :
    (w.setDesc fd d).files = w.files := rfl
@[simp] theorem setDesc_fds (w : World) (fd : Nat) (d : Option Desc) (n : Nat) :
    (w.setDesc fd d).fds n = if n = fd then d else w.fds n := rfl
@[simp] theorem setDesc_fails (w : World) (fd : Nat) (d : Option Desc) :
    (w.setDesc fd d).fails = w.fails := rfl
@[simp] theorem setDesc_refuses (w : World) (fd : Nat) (d : Option Desc) :
    (w.setDesc fd d).refuses = w.refuses := rfl
@[simp] theorem setDesc_nextFd (w : World) (fd : Nat) (d : Option Desc) :
    (w.setDesc fd d).nextFd = w.nextFd := rfl
@[simp] theorem setDesc_trace (w : World) (fd : Nat) (d : Option Desc) :
    (w.setDesc fd d).trace = w.trace := rfl

/-- A call the platform does not refuse is not refused through a repeating
wrapper either. -/
theorem refuses_of_fails_none (w : World) (c : Syscall) (h : w.fails c = none) :
    w.refuses c = none := by
  unfold World.refuses
  rw [h]

@[simp] theorem File.Close_files (f : File) (w : World) : (f.Close w).2.files = w.files := by
  unfold File.Close
  dsimp only
  split
  · rfl
  · split <;> rfl

@[simp] theorem File.Close_fails (f : File) (w : World) : (f.Close w).2.fails = w.fails := by
  unfold File.Close
  dsimp only
  split
  · rfl
  · split <;> rfl

@[simp] theorem File.Close_released (f : File) (w : World) : (f.Close w).2.fds f.fd = none := by
  unfold File.Close
  dsimp only
  split
  · assumption
  · split <;> simp

@[simp] theorem File.Fd_eq (f : File) : f.Fd = f.fd := rfl
@[simp] theorem File.Name_eq (f : File) : f.Name = f.name := rfl

@[simp] theorem osOpenFile_fails (name : String) (flag perm : Nat) (w : World) :
    (osOpenFile name flag perm w).2.fails = w.fails := by
  unfold osOpenFile
  dsimp only
  repeat (first | rfl | split)

@[simp] theorem osRemove_fails (name : String) (w : World) :
    (osRemove name w).2.fails = w.fails := by
  unfold osRemove
  dsimp only
  repeat (first | rfl | split)

@[simp] theorem syscallFlock_fails (fd how : Nat) (w : World) :
    (syscallFlock fd how w).2.fails = w.fails := by
  unfold syscallFlock
  dsimp only
  repeat (first | rfl | split)

@[simp] theorem File.Sync_fails (f : File) (w : World) : (f.Sync w).2.fails = w.fails := by
  unfold File.Sync
  dsimp only
  repeat (first | rfl | split)

@[simp] theorem File.Truncate_fails (f : File) (n : Nat) (w : World) :
    (f.Truncate n w).2.fails = w.fails := by
  unfold File.Truncate
  dsimp only
  repeat (first | rfl | split)

@[simp] theorem File.Seek_fails (f : File) (o : Int) (wh : Nat) (w : World) :
    (f.Seek o wh w).2.2.fails = w.fails := by
  unfold File.Seek
  dsimp only
  repeat (first | rfl | split)

@[simp] theorem File.Read_fails (f : File) (n : Nat) (w : World) :
    (f.Read n w).2.2.fails = w.fails := by
  unfold File.Read
  dsimp only
  repeat (first | rfl | split)

@[simp] theorem File.Write_fails (f : File) (p : List Byte) (w : World) :
    (f.Write p w).2.2.fails = w.fails := by
  unfold File.Write
  dsimp only
  repeat (first | rfl | split)

@[simp] theorem ioCopy_fails (dst src : File) (w : World) :
    (ioCopy dst src w).2.2.fails = w.fails := by
  unfold ioCopy
  dsimp only
  split <;> rename_i h <;>
    · have hr := congrArg (fun r => r.2.2.fails) h
      simp only [File.Read_fails] at hr
      simp [hr]

@[simp] theorem UpdateCallback.run_fails (cb : UpdateCallback) (rf wf : File) (w : World) :
    (cb.run rf wf w).2.fails = w.fails := by
  induction cb generalizing w with
  | ret err => rfl
  | read n k ih => simp only [UpdateCallback.run, ih, File.Read_fails]
  | seek o wh k ih => simp only [UpdateCallback.run, ih, File.Seek_fails]
  | write p k ih => simp only [UpdateCallback.run, ih, File.Write_fails]

/-! ### Files touched by each call -/

@[simp] theorem syscallFlock_files (fd how : Nat) (w : World) :
    (syscallFlock fd how w).2.files = w.files := by
  unfold syscallFlock
  dsimp only
  repeat (first | rfl | split)

@[simp] theorem File.Sync_files (f : File) (w : World) : (f.Sync w).2.files = w.files := by
  unfold File.Sync
  dsimp only
  repeat (first | rfl | split)

@[simp] theorem File.Seek_files (f : File) (o : Int) (wh : Nat) (w : World) :
    (f.Seek o wh w).2.2.files = w.files := by
  unfold File.Seek
  dsimp only
  repeat (first | rfl | split)

@[simp] theorem File.Read_files (f : File) (n : Nat) (w : World) :
    (f.Read n w).2.2.files = w.files := by
  unfold File.Read
  dsimp only
  repeat (first | rfl | split)

theorem osOpenFile_files_ne (name : String) (flag perm : Nat) (w : World) (p : String)
    (h : p ≠ name) : (osOpenFile name flag perm w).2.files p = w.files p := by
  unfold osOpenFile
  dsimp only
  repeat (first | rfl | split | simp [h])

/-- The two outcomes of `os.OpenFile`: an error that leaves the world as it
was up to the trace, or a fresh descriptor at offset zero. -/
theorem osOpenFile_result (name : String) (flag perm : Nat) (w : World) :
    (∃ e ev, osOpenFile name flag perm w = (.error e, w.emit ev)) ∨
    (∃ w1, osOpenFile name flag perm w = (.ok ⟨w.nextFd, name⟩, w1) ∧
      w1.fds w.nextFd = some ⟨name, flag, 0, none⟩ ∧
      (∀ n, n ≠ w.nextFd → w1.fds n = w.fds n) ∧ w1.nextFd = w.nextFd + 1) := by
  unfold osOpenFile
  dsimp only
  rcases hf : w.refuses (.openat name flag perm) with _ | e
  · rcases hn : w.files name with _ | data
    · dsimp only
      split
      · right
        exact ⟨_, rfl, by simp, fun n hn => by simp [hn], rfl⟩
      · left
        exact ⟨_, _, rfl⟩
    · dsimp only
      split
      · left
        exact ⟨_, _, rfl⟩
      · right
        exact ⟨_, rfl, by simp, fun n hn => by simp [hn], rfl⟩
  · left
    exact ⟨_, _, rfl⟩

theorem osOpenFile_files_keep (name : String) (flag perm : Nat) (w : World)
    (ht : flag &&& O_TRUNC = 0) : (osOpenFile name flag perm w).2.files name = w.files name ∨
      (w.files name = none ∧ (osOpenFile name flag perm w).2.files name = some []) := by
  unfold osOpenFile
  dsimp only
  rcases hf : w.refuses (.openat name flag perm) with _ | e
  · rcases hn : w.files name with _ | data
    · dsimp only
      split
      · right; simp
      · left; simp [hn]
    · dsimp only
      split
      · left; simp [hn]
      · left; simp [ht]
  · left; rfl

theorem osRemove_files_ne (name : String) (w : World) (p : String) (h : p ≠ name) :
    (osRemove name w).2.files p = w.files p := by
  unfold osRemove
  dsimp only
  repeat (first | rfl | split | simp [h])

theorem osRemove_files_self (name : String) (w : World) (h : w.fails (.unlink name) = none) :
    (osRemove name w).2.files name = none := by
  unfold osRemove
  dsimp only
  rw [refuses_of_fails_none _ _ h]
  dsimp only
  split
  · assumption
  · simp

/-! ### Descriptors touched by each call -/

@[simp] theorem syscallFlock_key (fd how : Nat) (w : World) (n : Nat) :
    (syscallFlock fd how w).2.key n = w.key n := by
  unfold syscallFlock World.key
  dsimp only
  split
  · rfl
  · split
    · rfl
    · rename_i d hd
      by_cases hn : n = fd
      · simp [hn, hd]
      · simp [hn]

@[simp] theorem syscallFlock_nextFd (fd how : Nat) (w : World) :
    (syscallFlock fd how w).2.nextFd = w.nextFd := by
  unfold syscallFlock
  dsimp only
  repeat (first | rfl | split)

@[simp] theorem osRemove_fds (name : String) (w : World) : (osRemove name w).2.fds = w.fds := by
  unfold osRemove
  dsimp only
  repeat (first | rfl | split)

@[simp] theorem File.Sync_fds (f : File) (w : World) : (f.Sync w).2.fds = w.fds := by
  unfold File.Sync
  dsimp only
  repeat (first | rfl | split)

@[simp] theorem File.Truncate_fds (f : File) (n : Nat) (w : World) :
    (f.Truncate n w).2.fds = w.fds := by
  unfold File.Truncate
  dsimp only
  repeat (first | rfl | split)

theorem File.Close_fds_ne (f : File) (w : World) (n : Nat) (h : n ≠ f.fd) :
    (f.Close w).2.fds n = w.fds n := by
  unfold File.Close
  dsimp only
  repeat (first | rfl | split | simp [h])

@[simp] theorem File.Seek_key (f : File) (o : Int) (wh : Nat) (w : World) (n : Nat) :
    (f.Seek o wh w).2.2.key n = w.key n := by
  unfold File.Seek World.key
  dsimp only
  rcases hd : w.fds f.fd with _ | d
  · rfl
  · dsimp only
    rcases hf : w.fails (.lseek f.fd o wh) with _ | e
    · dsimp only
      split_ifs <;> first | rfl | (by_cases hn : n = f.fd <;> simp [hn, hd])
    · rfl

@[simp] theorem File.Read_key (f : File) (k : Nat) (w : World) (n : Nat) :
    (f.Read k w).2.2.key n = w.key n := by
  unfold File.Read World.key
  dsimp only
  split
  · rfl
  · rename_i d hd
    split
    · rfl
    · split
      · rfl
      · split
        · split
          · rfl
          · by_cases hn : n = f.fd
            · simp [hn, hd]
            · simp [hn]
        · rfl

@[simp] theorem File.Write_key (f : File) (p : List Byte) (w : World) (n : Nat) :
    (f.Write p w).2.2.key n = w.key n := by
  unfold File.Write World.key
  dsimp only
  split
  · rfl
  · rename_i d hd
    split
    · rfl
    · split
      · by_cases hn : n = f.fd
        · simp [hn, hd]
        · simp [hn]
      · rfl

theorem File.Write_files_ne (f : File) (bs : List Byte) (w : World) (p nm : String) (fl : Nat)
    (hk : w.key f.fd = some (nm, fl)) (h : nm ≠ p) :
    (f.Write bs w).2.2.files p = w.files p := by
  unfold World.key at hk
  unfold File.Write
  dsimp only
  rcases hd : w.fds f.fd with _ | d
  · rfl
  · rw [hd] at hk
    simp only [Option.map_some', Option.some.injEq, Prod.mk.injEq] at hk
    have hne : p ≠ d.name := by rw [hk.1]; exact fun e => h e.symm
    dsimp only
    repeat (first | rfl | split | simp [hne])

theorem File.Truncate_files_ne (f : File) (k : Nat) (w : World) (p nm : String) (fl : Nat)
    (hk : w.key f.fd = some (nm, fl)) (h : nm ≠ p) :
    (f.Truncate k w).2.files p = w.files p := by
  unfold World.key at hk
  unfold File.Truncate
  dsimp only
  rcases hd : w.fds f.fd with _ | d
  · rfl
  · rw [hd] at hk
    simp only [Option.map_some', Option.some.injEq, Prod.mk.injEq] at hk
    have hne : p ≠ d.name := by rw [hk.1]; exact fun e => h e.symm
    dsimp only
    repeat (first | rfl | split | simp [hne])

@[simp] theorem UpdateCallback.run_key (cb : UpdateCallback) (rf wf : File) (w : World) (n : Nat) :
    (cb.run rf wf w).2.key n = w.key n := by
  induction cb generalizing w with
  | ret err => rfl
  | read n k ih => simp only [UpdateCallback.run, ih, File.Read_key]
  | seek o wh k ih => simp only [UpdateCallback.run, ih, File.Seek_key]
  | write p k ih => simp only [UpdateCallback.run, ih, File.Write_key]

/-- A callback changes no file but the one behind its writable stream. -/
theorem UpdateCallback.run_files_ne (cb : UpdateCallback) (rf wf : File) (w : World)
    (p nm : String) (fl : Nat) (hk : w.key wf.fd = some (nm, fl)) (h : nm ≠ p) :
    (cb.run rf wf w).2.files p = w.files p := by
  induction cb generalizing w with
  | ret err => rfl
  | read n k ih =>
    simp only [UpdateCallback.run]
    rw [ih _ _ _ (by rw [File.Read_key]; exact hk), File.Read_files]
  | seek o wh k ih =>
    simp only [UpdateCallback.run]
    rw [ih _ _ _ (by rw [File.Seek_key]; exact hk), File.Seek_files]
  | write bs k ih =>
    simp only [UpdateCallback.run]
    rw [ih _ _ _ (by rw [File.Write_key]; exact hk), File.Write_files_ne wf bs w p nm fl hk h]

@[simp] theorem emit_key (w : World) (e : Event) (n : Nat) : (w.emit e).key n = w.key n := rfl

/-- The temp file path differs from the path it is derived from. -/
theorem tmp_ne (fn : String) : fn ++ ".tmp" ≠ fn := by
  intro h
  have hl := congrArg String.length h
  rw [String.length_append] at hl
  have : (".tmp" : String).length = 4 := by decide
  omega

/-- A successful `os.OpenFile` returns a descriptor whose entry carries the
name and the flags of the call. -/
theorem osOpenFile_ok_key (name : String) (flag perm : Nat) (w w1 : World) (f : File)
    (h : osOpenFile name flag perm w = (.ok f, w1)) :
    f = ⟨w.nextFd, name⟩ ∧ w1.key f.fd = some (name, flag) ∧
      (∀ n, n ≠ w.nextFd → w1.key n = w.key n) ∧ w1.nextFd = w.nextFd + 1 := by
  rcases osOpenFile_result name flag perm w with ⟨e, ev, he⟩ | ⟨w2, he, hfd, hne, hnx⟩
  · rw [he] at h
    simp at h
  · rw [he] at h
    simp only [Prod.mk.injEq, Except.ok.injEq] at h
    obtain ⟨hf, hw⟩ := h
    subst hf hw
    refine ⟨rfl, ?_, ?_, hnx⟩
    · simp [World.key, hfd]
    · intro n hn
      simp [World.key, hne n hn]

/-! ### Calls that succeed -/

@[simp] theorem File.Sync_key (f : File) (w : World) (n : Nat) : (f.Sync w).2.key n = w.key n := by
  simp [World.key]

@[simp] theorem File.Sync_pos (f : File) (w : World) (n : Nat) : (f.Sync w).2.pos n = w.pos n := by
  simp [World.pos]

@[simp] theorem File.Truncate_key (f : File) (k : Nat) (w : World) (n : Nat) :
    (f.Truncate k w).2.key n = w.key n := by
  simp [World.key]

@[simp] theorem File.Truncate_pos (f : File) (k : Nat) (w : World) (n : Nat) :
    (f.Truncate k w).2.pos n = w.pos n := by
  simp [World.pos]

theorem key_pos_desc (w : World) (n : Nat) (nm : String) (fl o : Nat)
    (hk : w.key n = some (nm, fl)) (hp : w.pos n = some o) :
    ∃ l, w.fds n = some ⟨nm, fl, o, l⟩ := by
  unfold World.key at hk
  unfold World.pos at hp
  rcases hd : w.fds n with _ | ⟨a, b, c, l⟩
  · rw [hd] at hk
    simp at hk
  · rw [hd] at hk hp
    simp at hk hp
    exact ⟨l, by rw [hk.1, hk.2, hp]⟩

theorem File.Sync_ok (f : File) (w : World) (k : String × Nat) (hk : w.key f.fd = some k)
    (hf : w.fails (.fsync f.fd) = none) : (f.Sync w).1 = none := by
  unfold World.key at hk
  unfold File.Sync
  rcases hd : w.fds f.fd with _ | d
  · rw [hd] at hk
    simp at hk
  · simp [refuses_of_fails_none _ _ hf]

theorem File.Seek_start_pos (f : File) (w : World) (k : String × Nat) (hk : w.key f.fd = some k)
    (hf : w.fails (.lseek f.fd 0 SEEK_SET) = none) :
    (f.Seek 0 SEEK_SET w).2.2.pos f.fd = some 0 := by
  unfold World.key at hk
  unfold File.Seek World.pos
  rcases hd : w.fds f.fd with _ | d
  · rw [hd] at hk
    simp at hk
  · simp only [SEEK_SET] at hf
    simp [hf, SEEK_SET, SEEK_END]

theorem File.Seek_pos_ne (f : File) (o : Int) (wh : Nat) (w : World) (n : Nat) (h : n ≠ f.fd) :
    (f.Seek o wh w).2.2.pos n = w.pos n := by
  unfold File.Seek World.pos
  dsimp only
  rcases hd : w.fds f.fd with _ | d
  · rfl
  · dsimp only
    rcases hf : w.fails (.lseek f.fd o wh) with _ | e
    · dsimp only
      split_ifs <;> simp [h]
    · rfl

theorem File.Truncate_zero_files (f : File) (w : World) (nm : String) (fl : Nat)
    (hk : w.key f.fd = some (nm, fl)) (hw : writable fl = true)
    (hf : w.fails (.ftruncate f.fd 0) = none) :
    (f.Truncate 0 w).2.files nm = some [] := by
  unfold World.key at hk
  unfold File.Truncate
  rcases hd : w.fds f.fd with _ | d
  · rw [hd] at hk
    simp at hk
  · rw [hd] at hk
    simp only [Option.map_some', Option.some.injEq, Prod.mk.injEq] at hk
    simp [refuses_of_fails_none _ _ hf, hk.1, hk.2, hw, resize]

@[simp] theorem ioCopy_key (dst src : File) (w : World) (n : Nat) :
    (ioCopy dst src w).2.2.key n = w.key n := by
  unfold ioCopy
  dsimp only
  split <;> rename_i h <;>
    · have hr := congrArg (fun r => r.2.2.key n) h
      simp only [File.Read_key] at hr
      simp [hr]

/-- With no faults, `io.Copy` from a rewound source into a rewound, empty
destination leaves the bytes of the source in the destination. -/
theorem ioCopy_ok (dst src : File) (w : World) (ns nd : String) (fs fd : Nat) (B : List Byte)
    (hne : src.fd ≠ dst.fd)
    (hks : w.key src.fd = some (ns, fs)) (hps : w.pos src.fd = some 0)
    (hrs : readable fs = true) (hB : w.files ns = some B)
    (hkd : w.key dst.fd = some (nd, fd)) (hpd : w.pos dst.fd = some 0)
    (hwd : writable fd = true) (hap : (fd &&& O_APPEND != 0) = false)
    (hE : w.files nd = some [])
    (hok : ∀ c, w.fails c = none) :
    (ioCopy dst src w).2.1 = none ∧ (ioCopy dst src w).2.2.files nd = some B := by
  obtain ⟨ls, hs⟩ := key_pos_desc w src.fd ns fs 0 hks hps
  obtain ⟨ld, hd⟩ := key_pos_desc w dst.fd nd fd 0 hkd hpd
  have hne2 : dst.fd ≠ src.fd := fun e => hne e.symm
  have hr : ∀ c, w.refuses c = none := fun c => refuses_of_fails_none _ _ (hok c)
  rcases B with _ | ⟨b, B⟩
  · unfold ioCopy File.Read
    simp [hs, hr, hrs, hB, hE]
  · unfold ioCopy File.Read File.Write
    simp [hs, hd, hr, hrs, hB, hE, hwd, hap, hne2, overwrite]

theorem osOpenFile_existing_ok (name : String) (flag perm : Nat) (content : List Byte)
    (w : World) (hf : w.fails (.openat name flag perm) = none)
    (h : w.files name = some content)
    (hx : (flag &&& O_CREATE != 0 && flag &&& O_EXCL != 0) = false) :
    (osOpenFile name flag perm w).1 = .ok ⟨w.nextFd, name⟩ := by
  unfold osOpenFile
  simp [refuses_of_fails_none _ _ hf, h, hx]

theorem osOpenFile_create_ok (name : String) (flag perm : Nat)
    (w : World) (hf : w.fails (.openat name flag perm) = none)
    (h : w.files name = none) (hc : (flag &&& O_CREATE != 0) = true) :
    (osOpenFile name flag perm w).1 = .ok ⟨w.nextFd, name⟩ := by
  unfold osOpenFile
  simp only [refuses_of_fails_none _ _ hf, h, hc, if_true]
  rfl

theorem syscallFlock_ok (fd how : Nat) (w : World) (k : String × Nat)
    (hk : w.key fd = some k) (hf : w.fails (.flock fd how) = none) :
    (syscallFlock fd how w).1 = none := by
  unfold World.key at hk
  unfold syscallFlock
  rcases hd : w.fds fd with _ | d
  · rw [hd] at hk
    simp at hk
  · simp [hf]

/-- A successful `syscall.Flock` found the descriptor open and recorded the
new lock state on it; nothing else changes but the trace. -/
theorem syscallFlock_ok_result (fd how : Nat) (w w1 : World)
    (h : syscallFlock fd how w = (none, w1)) :
    ∃ d, w.fds fd = some d ∧
      w1 = (w.setDesc fd (some { d with lock := if how = LOCK_UN then none else some how })).emit
        (.sys (.flock fd how) none) := by
  unfold syscallFlock at h
  dsimp only at h
  rcases hf : w.fails (.flock fd how) with _ | e
  · rw [hf] at h
    dsimp only at h
    rcases hd : w.fds fd with _ | d
    · rw [hd] at h
      simp at h
    · rw [hd] at h
      simp only [Prod.mk.injEq, true_and] at h
      exact ⟨d, rfl, h.symm⟩
  · rw [hf] at h
    simp at h

/-- An exclusive create on a path that carries a file is refused and changes
nothing but the trace. -/
theorem osOpenFile_exclusive_existing (name : String) (flag perm : Nat) (content : List Byte)
    (w : World) (h : w.files name = some content)
    (hc : (flag &&& O_CREATE != 0) = true) (hx : (flag &&& O_EXCL != 0) = true) :
    ∃ e, osOpenFile name flag perm w =
      (.error (.path "open" name (.sys e)), w.emit (.sys (.openat name flag perm) (some e))) := by
  unfold osOpenFile
  dsimp only
  rcases hf : w.refuses (.openat name flag perm) with _ | e
  · refine ⟨.EEXIST, ?_⟩
    simp only [h, hc, hx, Bool.and_self, if_true]
  · exact ⟨e, rfl⟩

/-! ## The locked file handle -/

theorem LockedFile.Unlock_File (lf : LockedFile) (w : World) :
    (lf.Unlock w).2.1.File = lf.File ∧ (lf.Unlock w).2.1.flag = lf.flag := by
  unfold LockedFile.Unlock
  dsimp only
  split
  · exact ⟨rfl, rfl⟩
  · split <;> exact ⟨rfl, rfl⟩

theorem LockedFile.Close_File (lf : LockedFile) (w : World) :
    (lf.Close w).2.1.File = lf.File := by
  unfold LockedFile.Close
  rcases hs : lf.File.Sync w with ⟨_ | e, w2⟩
  · dsimp only
    have hf := (LockedFile.Unlock_File lf w2).1
    rcases hu : lf.Unlock w2 with ⟨_ | e, lf2, w3⟩ <;> rw [hu] at hf <;> exact hf
  · rfl

theorem LockedFile.Close_releases_descriptor (lf : LockedFile) (w : World)
    (h : (lf.Close w).1 = none) : (lf.Close w).2.2.fds lf.File.fd = none := by
  unfold LockedFile.Close at h ⊢
  rcases hs : lf.File.Sync w with ⟨_ | e, w2⟩
  · rw [hs] at h
    dsimp only at h ⊢
    have hf := (LockedFile.Unlock_File lf w2).1
    rcases hu : lf.Unlock w2 with ⟨_ | e, lf2, w3⟩
    · rw [hu] at hf
      dsimp only at hf ⊢
      rw [← hf]
      exact File.Close_released _ _
    · rw [hu] at h
      simp at h
  · rw [hs] at h
    simp at h

/-- C8. Unlock is idempotent: when the lock is held and Unlock succeeds, the
handle is unlocked with descriptor and access mode as before, the platform
holds no lock on the descriptor any more, and the world differs from the one
before by exactly the two log lines and the one flock call with LOCK_UN; a
second Unlock then returns nil and changes neither the handle nor the world
(so it issues no system call, in particular no flock). -/
theorem Unlock_twice (lf lf1 : LockedFile) (w w1 : World)
    (hheld : lf.lock ≠ none) (h : lf.Unlock w = (none, lf1, w1)) :
    lf1.lock = none ∧ lf1.File = lf.File ∧ lf1.flag = lf.flag ∧
      (w1.fds lf.File.fd).map (fun d => d.lock) = some none ∧
      w1.trace = w.trace ++ [.log ["unlocking", lf.File.name],
        .sys (.flock lf.File.fd LOCK_UN) none, .log ["unlocked", lf.File.name]] ∧
      lf1.Unlock w1 = (none, lf1, w1) := by
  unfold LockedFile.Unlock at h
  simp only [beq_iff_eq, hheld, if_false] at h
  rcases hfl : syscallFlock lf.File.Fd LOCK_UN (w.emit (.log ["unlocking", lf.File.Name]))
    with ⟨_ | e, w2⟩
  · rw [hfl] at h
    simp only [Prod.mk.injEq, true_and] at h
    obtain ⟨hlf, hw⟩ := h
    obtain ⟨d, hd, hw2⟩ := syscallFlock_ok_result _ _ _ _ hfl
    subst hlf hw hw2
    refine ⟨rfl, rfl, rfl, ?_, ?_, ?_⟩
    · simp
    · simp
    · unfold LockedFile.Unlock
      simp
  · rw [hfl] at h
    simp at h

/-- Witness for C8: the locked handle on `a`. -/
theorem Unlock_twice_witness :
    exampleHandle.lock ≠ none ∧
    exampleHandle.Unlock exampleHandleWorld =
      (none, (exampleHandle.Unlock exampleHandleWorld).2.1,
        (exampleHandle.Unlock exampleHandleWorld).2.2) ∧
    (exampleHandleWorld.fds 3).map (fun d => d.lock) = some (some LOCK_EX) ∧
    (exampleHandle.Unlock exampleHandleWorld).2.1.lock = none ∧
    ((exampleHandle.Unlock exampleHandleWorld).2.2.fds 3).map (fun d => d.lock) = some none ∧
    (exampleHandle.Unlock exampleHandleWorld).2.1.Unlock
        (exampleHandle.Unlock exampleHandleWorld).2.2 =
      (none, (exampleHandle.Unlock exampleHandleWorld).2.1,
        (exampleHandle.Unlock exampleHandleWorld).2.2) :=
  have h0 : exampleHandle.lock ≠ none := by decide
  have h1 : exampleHandle.Unlock exampleHandleWorld =
      (none, (exampleHandle.Unlock exampleHandleWorld).2.1,
        (exampleHandle.Unlock exampleHandleWorld).2.2) := rfl
  ⟨h0, h1, by decide, (Unlock_twice _ _ _ _ h0 h1).1, (Unlock_twice _ _ _ _ h0 h1).2.2.2.1,
    (Unlock_twice _ _ _ _ h0 h1).2.2.2.2.2⟩

/-- C7 fails as stated: after a first Close that returns nil, the second Close
on the handle of `a` returns an error. -/
theorem Close_twice_counterexample :
    (exampleHandle.Close exampleHandleWorld).1 = none ∧
    ((exampleHandle.Close exampleHandleWorld).2.1.Close
        (exampleHandle.Close exampleHandleWorld).2.2).1 =
      some (.path "sync" "a" .ErrClosed) := by
  decide

/-- C7, amended. When a first Close returns nil, the second Close returns the
error of Sync on the closed file (`os.ErrClosed`); it writes one line to the
logger and issues no system call, so it attempts neither an unlock nor a close
of the released descriptor, and it leaves the handle as it was. -/
theorem Close_twice (lf lf1 : LockedFile) (w w1 : World)
    (h : lf.Close w = (none, lf1, w1)) :
    lf1.Close w1 =
      (some (.path "sync" lf.File.name .ErrClosed), lf1,
        w1.emit (.logErr "error syncing file before closing:"
          (.path "sync" lf.File.name .ErrClosed))) := by
  have hF : lf1.File = lf.File := by
    have := LockedFile.Close_File lf w
    rw [h] at this
    exact this
  have hclosed : w1.fds lf.File.fd = none := by
    have := LockedFile.Close_releases_descriptor lf w (by rw [h])
    rw [h] at this
    exact this
  unfold LockedFile.Close File.Sync
  rw [hF, hclosed]

/-- Witness for C7: the handle on `a`. -/
theorem Close_twice_witness :
    exampleHandle.Close exampleHandleWorld =
      (none, (exampleHandle.Close exampleHandleWorld).2.1,
        (exampleHandle.Close exampleHandleWorld).2.2) ∧
    (exampleHandle.Close exampleHandleWorld).2.1.Close
        (exampleHandle.Close exampleHandleWorld).2.2 =
      (some (.path "sync" exampleHandle.File.name .ErrClosed),
        (exampleHandle.Close exampleHandleWorld).2.1,
        (exampleHandle.Close exampleHandleWorld).2.2.emit
          (.logErr "error syncing file before closing:"
            (.path "sync" exampleHandle.File.name .ErrClosed))) :=
  have h1 : exampleHandle.Close exampleHandleWorld =
      (none, (exampleHandle.Close exampleHandleWorld).2.1,
        (exampleHandle.Close exampleHandleWorld).2.2) := rfl
  ⟨h1, Close_twice _ _ _ _ h1⟩

/-- C4, the code at the failing input: Lock on the unlocked read-only handle
of `a` succeeds, asks flock for LOCK_EX and records LOCK_EX. -/
theorem Lock_readonly_requests_exclusive :
    (exampleReadOnlyHandle.Lock exampleReadOnlyWorld).1 = none ∧
    (exampleReadOnlyHandle.Lock exampleReadOnlyWorld).2.1.lock = some LOCK_EX ∧
    (exampleReadOnlyHandle.Lock exampleReadOnlyWorld).2.2.trace =
      exampleReadOnlyWorld.trace ++
        [.log ["lock", "a"], .sys (.flock 3 LOCK_EX) none, .log ["got lock for", "a"]] := by
  decide

/-- C5, the code at the failing inputs.  With O_RDWR|O_TRUNC the open and the
lock succeed, no truncate is issued and `a` keeps its bytes.  With O_RDONLY
(no truncate bit) the open and the lock succeed and a truncate to length zero
is issued; the platform rejects it on the read-only descriptor and OpenLocked
returns that error. -/
theorem OpenLocked_truncate_inverted :
    ((OpenLocked "a" (O_RDWR ||| O_TRUNC) 0o644 exampleWorld).2.trace =
        [.sys (.openat "a" O_RDWR 0o644) none, .log ["lock", "a"],
          .sys (.flock 3 LOCK_EX) none, .log ["got lock for", "a"]] ∧
      (OpenLocked "a" (O_RDWR ||| O_TRUNC) 0o644 exampleWorld).1 =
        .ok ⟨⟨3, "a"⟩, O_RDWR, some LOCK_EX⟩ ∧
      (OpenLocked "a" (O_RDWR ||| O_TRUNC) 0o644 exampleWorld).2.files "a" = some [5, 6, 7]) ∧
    ((OpenLocked "a" O_RDONLY 0o644 exampleWorld).2.trace =
        [.sys (.openat "a" O_RDONLY 0o644) none, .log ["lock", "a"],
          .sys (.flock 3 LOCK_EX) none, .log ["got lock for", "a"],
          .sys (.ftruncate 3 0) (some .EINVAL), .sys (.close 3) none] ∧
      (OpenLocked "a" O_RDONLY 0o644 exampleWorld).1 =
        .error (.path "truncate" "a" (.sys .EINVAL))) :=
  ⟨⟨by decide, rfl, by decide⟩, by decide, rfl⟩

/-- An interrupted truncate is repeated by `File.Truncate` and goes through:
the original is cut and ends up holding the byte written by the callback. -/
theorem UpdateLocked_truncate_interrupted :
    (UpdateLocked "a" exampleUpdate (exampleWorld.refusing (.ftruncate 3 0) .EINTR)).1 = none ∧
    (UpdateLocked "a" exampleUpdate (exampleWorld.refusing (.ftruncate 3 0) .EINTR)).2.files "a" =
      some [1] := by
  decide

/-- C10, the code at the failing input: the platform refuses the truncate of
the original with EIO, the callback returns nil, and UpdateLocked still
returns nil; the new byte is written over the old content, which is not cut. -/
theorem UpdateLocked_swallows_truncate_error :
    (UpdateLocked "a" exampleUpdate exampleTruncateFails).1 = none ∧
    Event.sys (.ftruncate 3 0) (some Errno.EIO) ∈
      (UpdateLocked "a" exampleUpdate exampleTruncateFails).2.trace ∧
    (UpdateLocked "a" exampleUpdate exampleTruncateFails).2.files "a" =
      some [1, 6, 7] := by
  decide

/-! ## Create -/

/-- C6. CreateLocked on a path that already carries a file returns an error;
the world afterwards is the world before plus one trace entry, the refused
exclusive create, so the callback was not entered, no lock was requested, and
the file holds the bytes it held. -/
theorem CreateLocked_existing (fn : String) (content : List Byte) (callback : WriteCallback)
    (w : World) (h : w.files fn = some content) :
    (CreateLocked fn callback w).1 ≠ none ∧
    (∃ e, (CreateLocked fn callback w).2 =
      w.emit (.sys (.openat fn (O_WRONLY ||| O_CREATE ||| O_EXCL) 0o664) (some e))) ∧
    (CreateLocked fn callback w).2.files fn = some content := by
  obtain ⟨e, he⟩ := osOpenFile_exclusive_existing fn (O_WRONLY ||| O_CREATE ||| O_EXCL) 0o664
    content w h (by decide) (by decide)
  simp only [CreateLocked, he]
  exact ⟨by simp, ⟨e, rfl⟩, by simp [h]⟩

/-- Witness for C6: creating over the existing file `a`. -/
theorem CreateLocked_existing_witness :
    exampleWorld.files "a" = some [5, 6, 7] ∧
    (CreateLocked "a" exampleFailingWrite exampleWorld).1 ≠ none ∧
    (CreateLocked "a" exampleFailingWrite exampleWorld).2.files "a" = some [5, 6, 7] :=
  have h : exampleWorld.files "a" = some [5, 6, 7] := by decide
  ⟨h, (CreateLocked_existing "a" [5, 6, 7] exampleFailingWrite exampleWorld h).1,
    (CreateLocked_existing "a" [5, 6, 7] exampleFailingWrite exampleWorld h).2.2⟩

/-! ## Callback errors -/

/-- C9. In each of ReadLocked, CreateLocked and UpdateLocked, when the open
and the lock (and for UpdateLocked the creation of the temp file) succeed and
the callback returns the error `e`, the operation returns exactly `e`,
whatever the unlock, close and remove calls that follow report. -/
theorem callback_error_verbatim :
    (∀ (fn : String) (callback : ReadCallback) (w w1 w2 w3 : World) (f : File) (e : Error),
      osOpen fn w = (.ok f, w1) →
      syscallFlock f.Fd LOCK_SH w1 = (none, w2) →
      callback.run f (w2.emit .callback) = (some e, w3) →
      (ReadLocked fn callback w).1 = some e) ∧
    (∀ (fn : String) (callback : WriteCallback) (w w1 w2 w3 : World) (f : File) (e : Error),
      osOpenFile fn (O_WRONLY ||| O_CREATE ||| O_EXCL) 0o664 w = (.ok f, w1) →
      syscallFlock f.Fd LOCK_EX w1 = (none, w2) →
      callback.run f (w2.emit .callback) = (some e, w3) →
      (CreateLocked fn callback w).1 = some e) ∧
    (∀ (fn : String) (callback : UpdateCallback) (w w1 w2 w3 w4 : World) (rf wf : File)
        (e : Error),
      osOpenFile fn (O_RDWR ||| O_CREATE) 0o664 w = (.ok rf, w1) →
      syscallFlock rf.Fd LOCK_EX w1 = (none, w2) →
      osOpenFile (fn ++ ".tmp") (O_RDWR ||| O_CREATE ||| O_EXCL) 0o644 w2 = (.ok wf, w3) →
      callback.run rf wf (w3.emit .callback) = (some e, w4) →
      (UpdateLocked fn callback w).1 = some e) := by
  refine ⟨?_, ?_, ?_⟩
  · intro fn callback w w1 w2 w3 f e h1 h2 h3
    simp only [ReadLocked, h1, h2, h3]
  · intro fn callback w w1 w2 w3 f e h1 h2 h3
    simp only [CreateLocked, h1, h2, h3]
  · intro fn callback w w1 w2 w3 w4 rf wf e h1 h2 h3 h4
    simp only [UpdateLocked, h1, h2, h3, h4]

/-- Witness for C9: the three operations on a platform whose close fails. -/
theorem callback_error_verbatim_witness :
    ((osOpen "a" exampleCloseFails).1 = .ok ⟨3, "a"⟩ ∧
      (exampleFailingRead.run ⟨3, "a"⟩
        ((syscallFlock 3 LOCK_SH (osOpen "a" exampleCloseFails).2).2.emit .callback)).1 =
        some (.user "boom") ∧
      (ReadLocked "a" exampleFailingRead exampleCloseFails).1 = some (.user "boom")) ∧
    ((osOpenFile "b" (O_WRONLY ||| O_CREATE ||| O_EXCL) 0o664 exampleCloseFails).1 =
        .ok ⟨3, "b"⟩ ∧
      (CreateLocked "b" exampleFailingWrite exampleCloseFails).1 = some (.user "boom")) ∧
    ((osOpenFile "a" (O_RDWR ||| O_CREATE) 0o664 exampleCloseFails).1 = .ok ⟨3, "a"⟩ ∧
      (UpdateLocked "a" exampleFailingUpdate exampleCloseFails).1 = some (.user "boom")) :=
  ⟨⟨rfl, rfl,
      callback_error_verbatim.1 "a" exampleFailingRead exampleCloseFails
        (osOpen "a" exampleCloseFails).2
        (syscallFlock 3 LOCK_SH (osOpen "a" exampleCloseFails).2).2
        (exampleFailingRead.run ⟨3, "a"⟩
          ((syscallFlock 3 LOCK_SH (osOpen "a" exampleCloseFails).2).2.emit .callback)).2
        ⟨3, "a"⟩ (.user "boom") rfl rfl rfl⟩,
    ⟨rfl,
      callback_error_verbatim.2.1 "b" exampleFailingWrite exampleCloseFails
        (osOpenFile "b" (O_WRONLY ||| O_CREATE ||| O_EXCL) 0o664 exampleCloseFails).2
        (syscallFlock 3 LOCK_EX
          (osOpenFile "b" (O_WRONLY ||| O_CREATE ||| O_EXCL) 0o664 exampleCloseFails).2).2
        (exampleFailingWrite.run ⟨3, "b"⟩
          ((syscallFlock 3 LOCK_EX
            (osOpenFile "b" (O_WRONLY ||| O_CREATE ||| O_EXCL) 0o664
              exampleCloseFails).2).2.emit .callback)).2
        ⟨3, "b"⟩ (.user "boom") rfl rfl rfl⟩,
    ⟨rfl,
      callback_error_verbatim.2.2 "a" exampleFailingUpdate exampleCloseFails
        (osOpenFile "a" (O_RDWR ||| O_CREATE) 0o664 exampleCloseFails).2
        (syscallFlock 3 LOCK_EX (osOpenFile "a" (O_RDWR ||| O_CREATE) 0o664 exampleCloseFails).2).2
        (osOpenFile "a.tmp" (O_RDWR ||| O_CREATE ||| O_EXCL) 0o644
          (syscallFlock 3 LOCK_EX
            (osOpenFile "a" (O_RDWR ||| O_CREATE) 0o664 exampleCloseFails).2).2).2
        (exampleFailingUpdate.run ⟨3, "a"⟩ ⟨4, "a.tmp"⟩
          ((osOpenFile "a.tmp" (O_RDWR ||| O_CREATE ||| O_EXCL) 0o644
            (syscallFlock 3 LOCK_EX
              (osOpenFile "a" (O_RDWR ||| O_CREATE) 0o664 exampleCloseFails).2).2).2.emit
            .callback)).2
        ⟨3, "a"⟩ ⟨4, "a.tmp"⟩ (.user "boom") rfl rfl rfl rfl⟩⟩

/-! ## Update -/

/-- C3 fails as stated.  When a temp file is already there, the exclusive
create is refused, UpdateLocked returns that error and the temp file is still
there; and when the platform refuses the removal, the temp file written by
this call is still there after a nil return. -/
theorem UpdateLocked_tmp_remains_counterexample :
    ((UpdateLocked "a" exampleUpdate exampleStaleTmp).1 =
        some (.wrap (.path "open" "a.tmp" (.sys .EEXIST)) "error creating tempfile a.tmp") ∧
      (UpdateLocked "a" exampleUpdate exampleStaleTmp).2.files "a.tmp" = some [9]) ∧
    ((UpdateLocked "a" exampleUpdate exampleRemoveFails).1 = none ∧
      (UpdateLocked "a" exampleUpdate exampleRemoveFails).2.files "a.tmp" = some [1]) := by
  decide

/-- C3, amended. When no file exists at the temp path before the call and the
platform does not refuse the removal of the temp path, no file exists at the
temp path after UpdateLocked, whatever the callback does and whichever step
fails. -/
theorem UpdateLocked_removes_tmp (fn : String) (callback : UpdateCallback) (w : World)
    (h0 : w.files (fn ++ ".tmp") = none)
    (hrm : w.fails (.unlink (fn ++ ".tmp")) = none) :
    (UpdateLocked fn callback w).2.files (fn ++ ".tmp") = none := by
  have hne := tmp_ne fn
  unfold UpdateLocked
  have hf1 := osOpenFile_files_ne fn (O_RDWR ||| O_CREATE) 0o664 w _ hne
  have hl1 := osOpenFile_fails fn (O_RDWR ||| O_CREATE) 0o664 w
  rcases h1 : osOpenFile fn (O_RDWR ||| O_CREATE) 0o664 w with ⟨_ | rf, w1⟩
  · rw [h1] at hf1
    dsimp only at hf1 ⊢
    rw [hf1, h0]
  · rw [h1] at hf1 hl1
    dsimp only at hf1 hl1 ⊢
    simp only [File.Close_files]
    have hf2 := syscallFlock_files rf.Fd LOCK_EX w1
    have hl2 := syscallFlock_fails rf.Fd LOCK_EX w1
    rcases h2 : syscallFlock rf.Fd LOCK_EX w1 with ⟨_ | e, w2⟩
    · rw [h2] at hf2 hl2
      dsimp only at hf2 hl2 ⊢
      simp only [syscallFlock_files]
      have hl3 := osOpenFile_fails (fn ++ ".tmp") (O_RDWR ||| O_CREATE ||| O_EXCL) 0o644 w2
      rcases osOpenFile_result (fn ++ ".tmp") (O_RDWR ||| O_CREATE ||| O_EXCL) 0o644 w2 with
        ⟨e, ev, h3⟩ | ⟨w3, h3, -⟩
      · rw [h3]
        dsimp only
        rw [emit_files, hf2, hf1, h0]
      · rw [h3] at hl3 ⊢
        dsimp only at hl3 ⊢
        apply osRemove_files_self
        rw [File.Close_fails]
        have hw : ∀ x : World, x.fails = w3.fails → x.fails (.unlink (fn ++ ".tmp")) = none := by
          intro x hx
          rw [hx, hl3, hl2, hl1, hrm]
        apply hw
        generalize (⟨w2.nextFd, fn ++ ".tmp"⟩ : File) = wf
        have c4 := UpdateCallback.run_fails callback rf wf (w3.emit .callback)
        rcases h4 : callback.run rf wf (w3.emit .callback) with ⟨_ | e, w4⟩
        · rw [h4] at c4
          dsimp only at c4 ⊢
          have c5 := File.Sync_fails wf w4
          rcases h5 : wf.Sync w4 with ⟨_ | e, w5⟩
          · rw [h5] at c5
            dsimp only at c5 ⊢
            have c6 := ioCopy_fails rf wf
              (rf.Truncate 0 (rf.Seek 0 SEEK_SET (wf.Seek 0 SEEK_SET w5).2.2).2.2).2
            rcases h6 : ioCopy rf wf
              (rf.Truncate 0 (rf.Seek 0 SEEK_SET (wf.Seek 0 SEEK_SET w5).2.2).2.2).2 with
              ⟨n, _ | e, w6⟩
            · rw [h6] at c6
              simp only [File.Truncate_fails, File.Seek_fails] at c6
              dsimp only at c6 ⊢
              have c7 := File.Sync_fails rf w6
              rcases h7 : rf.Sync w6 with ⟨_ | e, w7⟩
              · rw [h7] at c7
                dsimp only at c7 ⊢
                rw [c7, c6, c5, c4, emit_fails]
              · rw [h7] at c7
                dsimp only at c7 ⊢
                rw [c7, c6, c5, c4, emit_fails]
            · rw [h6] at c6
              simp only [File.Truncate_fails, File.Seek_fails] at c6
              dsimp only at c6 ⊢
              rw [c6, c5, c4, emit_fails]
          · rw [h5] at c5
            dsimp only at c5 ⊢
            rw [c5, c4, emit_fails]
        · rw [h4] at c4
          dsimp only at c4 ⊢
          rw [c4, emit_fails]
    · rw [h2] at hf2
      dsimp only at hf2 ⊢
      rw [hf2, hf1, h0]

/-- Witness for C3: an update of `a` on a platform whose close fails. -/
theorem UpdateLocked_removes_tmp_witness :
    exampleCloseFails.files ("a" ++ ".tmp") = none ∧
    exampleCloseFails.fails (.unlink ("a" ++ ".tmp")) = none ∧
    (UpdateLocked "a" exampleUpdate exampleCloseFails).2.files ("a" ++ ".tmp") = none :=
  have h0 : exampleCloseFails.files ("a" ++ ".tmp") = none := by decide
  have hrm : exampleCloseFails.fails (.unlink ("a" ++ ".tmp")) = none := by decide
  ⟨h0, hrm, UpdateLocked_removes_tmp "a" exampleUpdate exampleCloseFails h0 hrm⟩

/-- C2 fails as stated: `a` holds 5, 6, 7 and the callback writes 1, 2 and
returns an error.  When a temp file is already there the call fails before
the callback and the temp file stays; when the platform refuses the removal,
the temp file holding the bytes written stays.  In both runs `a` keeps its
bytes. -/
theorem UpdateLocked_failed_callback_counterexample :
    (exampleStaleTmp.files "a" = some [5, 6, 7] ∧
      (UpdateLocked "a" exampleFailingUpdate exampleStaleTmp).2.files "a" = some [5, 6, 7] ∧
      (UpdateLocked "a" exampleFailingUpdate exampleStaleTmp).2.files "a.tmp" = some [9]) ∧
    (exampleRemoveFails.files "a" = some [5, 6, 7] ∧
      (UpdateLocked "a" exampleFailingUpdate exampleRemoveFails).1 = some (.user "boom") ∧
      (UpdateLocked "a" exampleFailingUpdate exampleRemoveFails).2.files "a" = some [5, 6, 7] ∧
      (UpdateLocked "a" exampleFailingUpdate exampleRemoveFails).2.files "a.tmp" =
        some [1, 2]) := by
  decide

/-- C2, amended. The file at `fn` holds `content`, and the callback, whatever
it writes, returns an error in this call: if the open, the lock and the
creation of the temp file succeed, its run on the two files they return yields
an error (nothing is asked of the callback on other files or in other
worlds).  Then after UpdateLocked the file at `fn` still holds exactly
`content`; and no file exists at the temp path, provided none existed before
the call and the platform does not refuse its removal. -/
theorem UpdateLocked_failed_callback (fn : String) (content : List Byte)
    (callback : UpdateCallback) (w : World)
    (hA : w.files fn = some content)
    (hcb : ∀ rf wf w1 w2 w3,
      osOpenFile fn (O_RDWR ||| O_CREATE) 0o664 w = (.ok rf, w1) →
      syscallFlock rf.Fd LOCK_EX w1 = (none, w2) →
      osOpenFile (fn ++ ".tmp") (O_RDWR ||| O_CREATE ||| O_EXCL) 0o644 w2 = (.ok wf, w3) →
      (callback.run rf wf (w3.emit .callback)).1 ≠ none) :
    (UpdateLocked fn callback w).2.files fn = some content ∧
    (w.files (fn ++ ".tmp") = none → w.fails (.unlink (fn ++ ".tmp")) = none →
      (UpdateLocked fn callback w).2.files (fn ++ ".tmp") = none) := by
  have hne := tmp_ne fn
  unfold UpdateLocked
  have c1 := osOpenFile_files_keep fn (O_RDWR ||| O_CREATE) 0o664 w (by decide)
  have d1 := osOpenFile_files_ne fn (O_RDWR ||| O_CREATE) 0o664 w (fn ++ ".tmp") hne
  have f1 := osOpenFile_fails fn (O_RDWR ||| O_CREATE) 0o664 w
  rcases h1 : osOpenFile fn (O_RDWR ||| O_CREATE) 0o664 w with ⟨_ | rf, w1⟩ <;>
    rw [h1] at c1 d1 f1 <;> dsimp only at c1 d1 f1 ⊢ <;>
    have hw1 : w1.files fn = some content := by
      rcases c1 with c1 | ⟨c1, -⟩
      · rw [c1, hA]
      · rw [hA] at c1
        simp at c1
  · exact ⟨hw1, fun h0 _ => by rw [d1, h0]⟩
  · simp only [File.Close_files]
    have c2 := syscallFlock_files rf.Fd LOCK_EX w1
    have f2 := syscallFlock_fails rf.Fd LOCK_EX w1
    rcases h2 : syscallFlock rf.Fd LOCK_EX w1 with ⟨_ | e, w2⟩ <;>
      rw [h2] at c2 f2 <;> dsimp only at c2 f2 ⊢
    · simp only [syscallFlock_files]
      have c3 := osOpenFile_files_ne (fn ++ ".tmp") (O_RDWR ||| O_CREATE ||| O_EXCL) 0o644 w2 fn
        (fun e => hne e.symm)
      have f3 := osOpenFile_fails (fn ++ ".tmp") (O_RDWR ||| O_CREATE ||| O_EXCL) 0o644 w2
      rcases osOpenFile_result (fn ++ ".tmp") (O_RDWR ||| O_CREATE ||| O_EXCL) 0o644 w2 with
        ⟨e, ev, h3⟩ | ⟨w3, h3, -⟩
      · -- the temp file cannot be created: the callback is not run
        rw [h3] at c3 ⊢
        dsimp only at c3 ⊢
        exact ⟨by rw [c3, c2]; exact hw1, fun h0 _ => by rw [emit_files, c2, d1, h0]⟩
      · rw [h3] at c3 f3 ⊢
        dsimp only at c3 f3 ⊢
        have k3 := (osOpenFile_ok_key _ _ _ _ _ _ h3).2.1
        have c4 := UpdateCallback.run_files_ne callback rf ⟨w2.nextFd, fn ++ ".tmp"⟩
          (w3.emit .callback) fn (fn ++ ".tmp") _ (by rw [emit_key]; exact k3) hne
        have f4 := UpdateCallback.run_fails callback rf ⟨w2.nextFd, fn ++ ".tmp"⟩
          (w3.emit .callback)
        rcases h4 : callback.run rf ⟨w2.nextFd, fn ++ ".tmp"⟩ (w3.emit .callback) with
          ⟨_ | e, w4⟩
        · exact absurd (by rw [h4]) (hcb rf ⟨w2.nextFd, fn ++ ".tmp"⟩ w1 w2 w3 h1 h2 h3)
        · rw [h4] at c4 f4
          dsimp only at c4 f4 ⊢
          refine ⟨?_, fun _ hrm => ?_⟩
          · rw [osRemove_files_ne _ _ _ (fun e => hne e.symm), File.Close_files, c4, emit_files,
              c3, c2]
            exact hw1
          · apply osRemove_files_self
            rw [File.Close_fails, f4, emit_fails, f3, f2, f1, hrm]
    · exact ⟨by rw [c2]; exact hw1, fun h0 _ => by rw [c2, d1, h0]⟩

/-- Witness for C2: on a platform whose close fails, a callback that returns
an error only when the original is not empty (so not on every file). -/
theorem UpdateLocked_failed_callback_witness :
    exampleCloseFails.files "a" = some [5, 6, 7] ∧
    (exampleConditionalUpdate.run ⟨3, "b"⟩ ⟨4, "b.tmp"⟩
      (osOpenFile "b" (O_RDWR ||| O_CREATE) 0o664 exampleWorld).2).1 = none ∧
    (UpdateLocked "a" exampleConditionalUpdate exampleCloseFails).1 = some (.user "boom") ∧
    (UpdateLocked "a" exampleConditionalUpdate exampleCloseFails).2.files "a" =
      some [5, 6, 7] ∧
    (UpdateLocked "a" exampleConditionalUpdate exampleCloseFails).2.files ("a" ++ ".tmp") =
      none :=
  have hA : exampleCloseFails.files "a" = some [5, 6, 7] := by decide
  have hcb : ∀ rf wf w1 w2 w3,
      osOpenFile "a" (O_RDWR ||| O_CREATE) 0o664 exampleCloseFails = (.ok rf, w1) →
      syscallFlock rf.Fd LOCK_EX w1 = (none, w2) →
      osOpenFile ("a" ++ ".tmp") (O_RDWR ||| O_CREATE ||| O_EXCL) 0o644 w2 = (.ok wf, w3) →
      (exampleConditionalUpdate.run rf wf (w3.emit .callback)).1 ≠ none := by
    intro rf wf w1 w2 w3 h1 h2 h3
    have e1 : (Except.ok ⟨3, "a"⟩ : Except Error File) = .ok rf := congrArg Prod.fst h1
    have q1 := congrArg Prod.snd h1
    injection e1 with e1
    subst e1
    dsimp only at q1
    subst q1
    have q2 := congrArg Prod.snd h2
    dsimp only at q2
    subst q2
    have e3 : (Except.ok ⟨4, "a.tmp"⟩ : Except Error File) = .ok wf := congrArg Prod.fst h3
    have q3 := congrArg Prod.snd h3
    injection e3 with e3
    subst e3
    dsimp only at q3
    subst q3
    decide
  have h := UpdateLocked_failed_callback "a" [5, 6, 7] exampleConditionalUpdate
    exampleCloseFails hA hcb
  ⟨hA, by decide, by decide, h.1, h.2 (by decide) (by decide)⟩

/-- The copy-back: when the platform refuses no call, the three opening steps
return `rf`, `wf`, and the callback returns nil leaving `B` in the temp file,
UpdateLocked returns nil and the file at `fn` holds `B`. -/
theorem UpdateLocked_commit (fn : String) (B : List Byte)
    (callback : UpdateCallback) (w w1 w2 w3 w4 : World) (rf wf : File)
    (hok : ∀ c, w.fails c = none)
    (h1 : osOpenFile fn (O_RDWR ||| O_CREATE) 0o664 w = (.ok rf, w1))
    (h2 : syscallFlock rf.Fd LOCK_EX w1 = (none, w2))
    (h3 : osOpenFile (fn ++ ".tmp") (O_RDWR ||| O_CREATE ||| O_EXCL) 0o644 w2 = (.ok wf, w3))
    (h4 : callback.run rf wf (w3.emit .callback) = (none, w4))
    (hB : w4.files (fn ++ ".tmp") = some B) :
    (UpdateLocked fn callback w).1 = none ∧ (UpdateLocked fn callback w).2.files fn = some B := by
  have hne := tmp_ne fn
  -- descriptors after the three opening steps
  obtain ⟨hrf, k1, -, n1⟩ := osOpenFile_ok_key _ _ _ _ _ _ h1
  obtain ⟨hwf, k3, k3ne, -⟩ := osOpenFile_ok_key _ _ _ _ _ _ h3
  have k2 := fun n => syscallFlock_key rf.Fd LOCK_EX w1 n
  have n2 := syscallFlock_nextFd rf.Fd LOCK_EX w1
  rw [h2] at k2 n2
  dsimp only at k2 n2
  have hfd : rf.fd ≠ wf.fd := by
    rw [hrf, hwf]
    dsimp only
    omega
  have kr3 : w3.key rf.fd = some (fn, O_RDWR ||| O_CREATE) := by
    rw [k3ne _ (by rw [hrf]; dsimp only; omega), k2, k1]
  -- the fault oracle never changes
  have f1 := osOpenFile_fails fn (O_RDWR ||| O_CREATE) 0o664 w
  have f2 := syscallFlock_fails rf.Fd LOCK_EX w1
  have f3 := osOpenFile_fails (fn ++ ".tmp") (O_RDWR ||| O_CREATE ||| O_EXCL) 0o644 w2
  have f4 := UpdateCallback.run_fails callback rf wf (w3.emit .callback)
  rw [h1] at f1
  rw [h2] at f2
  rw [h3] at f3
  rw [h4] at f4
  dsimp only at f1 f2 f3 f4
  have ok4 : ∀ c, w4.fails c = none := by
    intro c
    rw [f4, emit_fails, f3, f2, f1, hok]
  -- descriptors after the callback
  have k4 := fun n => UpdateCallback.run_key callback rf wf (w3.emit .callback) n
  rw [h4] at k4
  dsimp only at k4
  have kr4 : w4.key rf.fd = some (fn, O_RDWR ||| O_CREATE) := by rw [k4, emit_key, kr3]
  have kw4 : w4.key wf.fd = some (fn ++ ".tmp", O_RDWR ||| O_CREATE ||| O_EXCL) := by
    rw [k4, emit_key, k3]
  simp only [UpdateLocked, h1, h2, h3, h4]
  -- flushing the temp file
  have e5 : wf.Sync w4 = (none, (wf.Sync w4).2) :=
    Prod.ext (File.Sync_ok wf w4 _ kw4 (ok4 _)) rfl
  rw [e5]
  dsimp only
  -- rewinding both files and cutting the original
  have ok6 : ∀ c, (wf.Seek 0 SEEK_SET (wf.Sync w4).2).2.2.fails c = none := by
    intro c
    rw [File.Seek_fails, File.Sync_fails, ok4]
  have ok7 : ∀ c, (rf.Seek 0 SEEK_SET (wf.Seek 0 SEEK_SET (wf.Sync w4).2).2.2).2.2.fails c =
      none := by
    intro c
    rw [File.Seek_fails, ok6]
  have kr7 : (rf.Seek 0 SEEK_SET (wf.Seek 0 SEEK_SET (wf.Sync w4).2).2.2).2.2.key rf.fd =
      some (fn, O_RDWR ||| O_CREATE) := by
    rw [File.Seek_key, File.Seek_key, File.Sync_key, kr4]
  have ok8 : ∀ c, (rf.Truncate 0
      (rf.Seek 0 SEEK_SET (wf.Seek 0 SEEK_SET (wf.Sync w4).2).2.2).2.2).2.fails c = none := by
    intro c
    rw [File.Truncate_fails, ok7]
  have c8 := ioCopy_ok rf wf
    (rf.Truncate 0 (rf.Seek 0 SEEK_SET (wf.Seek 0 SEEK_SET (wf.Sync w4).2).2.2).2.2).2
    (fn ++ ".tmp") fn (O_RDWR ||| O_CREATE ||| O_EXCL) (O_RDWR ||| O_CREATE) B
    (fun e => hfd e.symm)
    (by rw [File.Truncate_key, File.Seek_key, File.Seek_key, File.Sync_key, kw4])
    (by
      rw [File.Truncate_pos, File.Seek_pos_ne _ _ _ _ _ (fun e => hfd e.symm)]
      exact File.Seek_start_pos wf _ _ (by rw [File.Sync_key]; exact kw4)
        (by rw [File.Sync_fails]; exact ok4 _))
    (by decide)
    (by
      rw [File.Truncate_files_ne rf 0 _ (fn ++ ".tmp") fn _ kr7 (fun e => hne e.symm),
        File.Seek_files, File.Seek_files, File.Sync_files, hB])
    (by rw [File.Truncate_key, kr7])
    (by
      rw [File.Truncate_pos]
      exact File.Seek_start_pos rf _ _ (by rw [File.Seek_key, File.Sync_key]; exact kr4)
        (ok6 _))
    (by decide) (by decide)
    (File.Truncate_zero_files rf _ fn _ kr7 (by decide) (ok7 _))
    ok8
  have e8 : ioCopy rf wf
      (rf.Truncate 0 (rf.Seek 0 SEEK_SET (wf.Seek 0 SEEK_SET (wf.Sync w4).2).2.2).2.2).2 =
      ((ioCopy rf wf
        (rf.Truncate 0 (rf.Seek 0 SEEK_SET (wf.Seek 0 SEEK_SET (wf.Sync w4).2).2.2).2.2).2).1,
        none,
        (ioCopy rf wf
          (rf.Truncate 0
            (rf.Seek 0 SEEK_SET (wf.Seek 0 SEEK_SET (wf.Sync w4).2).2.2).2.2).2).2.2) :=
    Prod.ext rfl (Prod.ext c8.1 rfl)
  rw [e8]
  dsimp only
  -- flushing the original
  have e9 : rf.Sync (ioCopy rf wf
      (rf.Truncate 0 (rf.Seek 0 SEEK_SET (wf.Seek 0 SEEK_SET (wf.Sync w4).2).2.2).2.2).2).2.2 =
      (none, (rf.Sync (ioCopy rf wf
        (rf.Truncate 0
          (rf.Seek 0 SEEK_SET (wf.Seek 0 SEEK_SET (wf.Sync w4).2).2.2).2.2).2).2.2).2) :=
    Prod.ext (File.Sync_ok rf _ (fn, O_RDWR ||| O_CREATE)
      (by rw [ioCopy_key, File.Truncate_key, kr7])
      (by rw [ioCopy_fails]; exact ok8 _)) rfl
  rw [e9]
  dsimp only
  refine ⟨rfl, ?_⟩
  rw [File.Close_files, syscallFlock_files, osRemove_files_ne _ _ _ (fun e => hne e.symm),
    File.Close_files, File.Sync_files]
  exact c8.2

/-- C1. The file at `fn` holds `A`, no temp file exists and the platform
refuses no call; the callback, run on the original and on the temp file in the
world reached by the open, the lock and the creation of the temp file, returns
nil leaving exactly `B` in the temp file.  Then UpdateLocked returns nil and
the file at `fn` holds exactly `B`. -/
theorem UpdateLocked_replaces_content (fn : String) (A B : List Byte)
    (callback : UpdateCallback) (w w4 : World)
    (hok : ∀ c, w.fails c = none)
    (hA : w.files fn = some A) (htmp : w.files (fn ++ ".tmp") = none)
    (h4 : callback.run ⟨w.nextFd, fn⟩ ⟨w.nextFd + 1, fn ++ ".tmp"⟩
      ((osOpenFile (fn ++ ".tmp") (O_RDWR ||| O_CREATE ||| O_EXCL) 0o644
        (syscallFlock w.nextFd LOCK_EX
          (osOpenFile fn (O_RDWR ||| O_CREATE) 0o664 w).2).2).2.emit .callback) = (none, w4))
    (hB : w4.files (fn ++ ".tmp") = some B) :
    (UpdateLocked fn callback w).1 = none ∧ (UpdateLocked fn callback w).2.files fn = some B := by
  -- the open of the original succeeds
  have h1 : osOpenFile fn (O_RDWR ||| O_CREATE) 0o664 w =
      (.ok ⟨w.nextFd, fn⟩, (osOpenFile fn (O_RDWR ||| O_CREATE) 0o664 w).2) :=
    Prod.ext (osOpenFile_existing_ok fn _ _ A w (hok _) hA (by decide)) rfl
  obtain ⟨-, k1, -, n1⟩ := osOpenFile_ok_key _ _ _ _ _ _ h1
  -- the lock succeeds
  have h2 : syscallFlock (File.Fd ⟨w.nextFd, fn⟩) LOCK_EX
      (osOpenFile fn (O_RDWR ||| O_CREATE) 0o664 w).2 =
      (none, (syscallFlock w.nextFd LOCK_EX (osOpenFile fn (O_RDWR ||| O_CREATE) 0o664 w).2).2) :=
    Prod.ext (syscallFlock_ok _ _ _ _ k1 (by rw [osOpenFile_fails]; exact hok _)) rfl
  -- the temp file is created
  have h3 : osOpenFile (fn ++ ".tmp") (O_RDWR ||| O_CREATE ||| O_EXCL) 0o644
      (syscallFlock w.nextFd LOCK_EX (osOpenFile fn (O_RDWR ||| O_CREATE) 0o664 w).2).2 =
      (.ok ⟨w.nextFd + 1, fn ++ ".tmp"⟩,
        (osOpenFile (fn ++ ".tmp") (O_RDWR ||| O_CREATE ||| O_EXCL) 0o644
          (syscallFlock w.nextFd LOCK_EX
            (osOpenFile fn (O_RDWR ||| O_CREATE) 0o664 w).2).2).2) := by
    have h := osOpenFile_create_ok (fn ++ ".tmp") (O_RDWR ||| O_CREATE ||| O_EXCL) 0o644
      (syscallFlock w.nextFd LOCK_EX (osOpenFile fn (O_RDWR ||| O_CREATE) 0o664 w).2).2
      (by rw [syscallFlock_fails, osOpenFile_fails]; exact hok _)
      (by rw [syscallFlock_files, osOpenFile_files_ne _ _ _ _ _ (tmp_ne fn)]; exact htmp)
      (by decide)
    rw [syscallFlock_nextFd, n1] at h
    exact Prod.ext h rfl
  exact UpdateLocked_commit fn B callback w _ _ _ w4 _ _ hok h1 h2 h3 h4 hB

/-- Witness for C1: `a` holds 5, 6, 7 and the callback writes the byte 1. -/
theorem UpdateLocked_replaces_content_witness :
    (∀ c, exampleWorld.fails c = none) ∧
    exampleWorld.files "a" = some [5, 6, 7] ∧
    exampleWorld.files ("a" ++ ".tmp") = none ∧
    (UpdateLocked "a" exampleUpdate exampleWorld).1 = none ∧
    (UpdateLocked "a" exampleUpdate exampleWorld).2.files "a" = some [1] :=
  have hok : ∀ c, exampleWorld.fails c = none := fun _ => rfl
  have hA : exampleWorld.files "a" = some [5, 6, 7] := by decide
  have htmp : exampleWorld.files ("a" ++ ".tmp") = none := by decide
  have h := UpdateLocked_replaces_content "a" [5, 6, 7] [1] exampleUpdate exampleWorld
    (exampleUpdate.run ⟨3, "a"⟩ ⟨4, "a.tmp"⟩
      ((osOpenFile ("a" ++ ".tmp") (O_RDWR ||| O_CREATE ||| O_EXCL) 0o644
        (syscallFlock 3 LOCK_EX
          (osOpenFile "a" (O_RDWR ||| O_CREATE) 0o664 exampleWorld).2).2).2.emit
        .callback)).2
    hok hA htmp rfl (by decide)
  ⟨hok, hA, htmp, h.1, h.2⟩

end Fsutil
